import Mathlib

/-!
Shallow embedding of the `llm-council` backend (files `backend/openrouter.py`
and `backend/main.py`) and proofs about it.

`backend/openrouter.py` wraps one OpenRouter chat-completions call per model
(`query_model`) and a concurrent fan-out over several models
(`query_models_parallel`).  `backend/main.py` exposes a blocking endpoint
(`send_message`) and a streaming endpoint whose inner generator
(`event_generator`) yields server-sent events stage by stage.

Network and provider behaviour is modelled by an explicit outcome value per
HTTP request; awaited coroutines and storage calls are modelled by `Except`
results supplied in an environment record; the generator is modelled as the
list of actions (events emitted and storage mutations) it performs.
-/

namespace LLMCouncil

/-! ## Model of one OpenRouter response (`backend/openrouter.py`) -/

/-- The `message` object inside a choice.  `content` and `reasoning_details`
are optional JSON fields, read with `.get` in the source. -/
structure Message where
  content : Option String
  reasoning_details : Option String
deriving DecidableEq, Repr

/-- One element of the `choices` array.  The source reads
`choices[0].get("message", {})` and `choices[0].get("finish_reason", "unknown")`. -/
structure Choice where
  message : Option Message
  finish_reason : Option String
deriving DecidableEq, Repr

/-- The parsed JSON body of a provider response.  The source reads
`data.get("choices", [])`, so an absent `choices` field behaves like `[]`. -/
structure ResponseBody where
  choices : Option (List Choice)
deriving DecidableEq, Repr

/-- Outcome of the HTTP request performed inside `query_model`'s `try` block:
either the request itself raises (transport error, timeout), or a response
arrives with a status code and a body whose JSON parse (`response.json()`)
either succeeds or raises. -/
inductive HttpOutcome where
  | exn (msg : String)
  | response (status : Nat) (body : Except String ResponseBody)
deriving Repr

/-- The value `query_model` returns on the non-`None` path: the dict
`{"content": ..., "reasoning_details": ...}` built at the end of the `try`
block. -/
structure ModelResponse where
  content : Option String
  reasoning_details : Option String
deriving DecidableEq, Repr

/-- The empty dict `{}` used as default for `choices[0].get("message", {})`. -/
def emptyMessage : Message := { content := none, reasoning_details := none }

/-- The body of `query_model`'s `try` block (source lines 63-115): a step that
raises is an `Except.error`; `return None` on bad status or empty `choices`
is `Except.ok none`; the success dict is `Except.ok (some ...)`. -/
def query_model_try (o : HttpOutcome) : Except String (Option ModelResponse) :=
  match o with
  | .exn m => .error m
  | .response status bodyR =>
    if 400 ≤ status then
      .ok none
    else
      match bodyR with
      | .error m => .error m
      | .ok body =>
        match body.choices.getD [] with
        | [] => .ok none
        | c :: _ =>
          let message := c.message.getD emptyMessage
          .ok (some { content := message.content
                      reasoning_details := message.reasoning_details })

/-- `query_model` (source lines 27-125): the `try` block wrapped in
`except Exception: return None`. -/
def query_model (o : HttpOutcome) : Option ModelResponse :=
  match query_model_try o with
  | .ok r => r
  | .error _ => none

/-! ## Model of the concurrent fan-out (`query_models_parallel`)

A Python `dict` is modelled as an association list in insertion order:
inserting an existing key overwrites its value in place (keeping the key's
original position), inserting a new key appends.  `asyncio.gather` is
modelled by an explicit completion schedule: tasks finish in an arbitrary
permutation of their indices, and `gather` returns the results re-assembled
in task order. -/

/-- First-match association-list lookup (how a Python dict is read). -/
def alookup {α β : Type} [DecidableEq α] (k : α) : List (α × β) → Option β
  | [] => none
  | p :: t => if p.1 = k then some p.2 else alookup k t

/-- `d[k] = v` on a Python dict: overwrite in place if the key exists,
append otherwise. -/
def dictInsert {α β : Type} [DecidableEq α] (d : List (α × β)) (k : α) (v : β) :
    List (α × β) :=
  if d.any (fun p => p.1 = k) then
    d.map (fun p => if p.1 = k then (k, v) else p)
  else
    d ++ [(k, v)]

/-- The dict comprehension `{model: response for model, response in zip(...)}`:
successive insertion of each pair into an initially empty dict. -/
def dictOfPairs {α β : Type} [DecidableEq α] (ps : List (α × β)) : List (α × β) :=
  ps.foldl (fun d p => dictInsert d p.1 p.2) []

/-- `asyncio.gather` over a list of task results: `order` is the sequence of
task indices in completion order; the pairs `(index, result)` collected in
that order are then read back in task-index order.  When `order` is a
permutation of the task indices this returns exactly `tasks`. -/
def asyncGather {α : Type} (tasks : List α) (order : List Nat) (default : α) :
    List α :=
  let completed := order.filterMap (fun i => (tasks[i]?).map (fun r => (i, r)))
  (List.range tasks.length).map (fun i => (alookup i completed).getD default)

/-- `query_models_parallel` (source lines 128-168): one `query_model` task per
entry of `models` (the `i`-th task's HTTP outcome is `outcomes[i]`), gathered
under completion schedule `order`, then zipped with `models` into a dict. -/
def query_models_parallel (models : List String) (outcomes : List HttpOutcome)
    (order : List Nat) : List (String × Option ModelResponse) :=
  dictOfPairs (models.zip (asyncGather (outcomes.map query_model) order none))

/-! ## Model of the streaming endpoint (`backend/main.py`, `event_generator`)

The generator's awaited coroutines (`stage1_collect_responses`,
`stage2_collect_rankings`, `calculate_aggregate_rankings`,
`stage3_synthesize_final`, the title task) and its storage calls are external
to `main.py`; each is modelled by an `Except String` outcome supplied in an
environment record (`Except.error` = the call raised).  Stage payloads are
abstract type parameters `α` (stage 1 data), `β` (stage 2 rankings), `L`
(label-to-model map), `R` (aggregate rankings), `γ` (stage 3 result); titles
are strings.  The generator is modelled as the list of actions it performs:
events yielded plus storage mutations and title-task operations. -/

/-- One server-sent event, as built by the `json.dumps({'type': ...})` calls. -/
inductive Event (α β L R γ : Type) where
  | stage1_start
  | stage1_complete (data : α)
  | stage2_start
  | stage2_complete (data : β) (label_to_model : L) (aggregate_rankings : R)
  | stage3_start
  | stage3_complete (data : γ)
  | title_complete (title : String)
  | complete
  | error (msg : String)
deriving DecidableEq, Repr

/-- One observable step of `event_generator`: a yielded event, a storage
mutation, or a title-task operation (`asyncio.create_task` / `await`). -/
inductive Action (α β L R γ : Type) where
  | storeAddUser
  | createTitleTask
  | awaitTitle (title : String)
  | storeUpdateTitle (title : String)
  | storeAddAssistant (stage1 : α) (stage2 : β) (stage3 : γ)
  | emit (e : Event α β L R γ)
deriving DecidableEq, Repr

/-- Outcomes of the fallible operations `event_generator` performs, in source
order: `storage.add_user_message`, the three stage coroutines,
`calculate_aggregate_rankings`, the title task, `update_conversation_title`,
and `storage.add_assistant_message`. -/
structure StreamEnv (α β L R γ : Type) where
  addUser : Except String Unit
  stage1 : Except String α
  stage2 : Except String (β × L)
  aggregate : Except String R
  stage3 : Except String γ
  titleTask : Except String String
  updateTitle : Except String Unit
  addAssistant : Except String Unit

/-- One fallible step inside the generator's `try` block: if it raises, the
`except` clause yields a single `error` event and the generator ends;
otherwise the continuation runs. -/
def step {α β L R γ χ : Type} (r : Except String χ)
    (k : χ → List (Action α β L R γ)) : List (Action α β L R γ) :=
  match r with
  | .error e => [Action.emit (Event.error e)]
  | .ok x => k x

/-- `event_generator` (source lines 205-288), as the list of actions it
performs for a given environment and `is_first_message` flag. -/
def event_generator {α β L R γ : Type} (env : StreamEnv α β L R γ)
    (isFirst : Bool) : List (Action α β L R γ) :=
  step env.addUser fun _ =>
  Action.storeAddUser ::
  (if isFirst then [Action.createTitleTask] else []) ++
  Action.emit Event.stage1_start ::
  step env.stage1 fun d1 =>
  Action.emit (Event.stage1_complete d1) ::
  Action.emit Event.stage2_start ::
  step env.stage2 fun s2 =>
  step env.aggregate fun agg =>
  Action.emit (Event.stage2_complete s2.1 s2.2 agg) ::
  Action.emit Event.stage3_start ::
  step env.stage3 fun d3 =>
  Action.emit (Event.stage3_complete d3) ::
  (if isFirst then
    step env.titleTask fun t =>
    Action.awaitTitle t ::
    step env.updateTitle fun _ =>
    Action.storeUpdateTitle t ::
    Action.emit (Event.title_complete t) ::
    step env.addAssistant fun _ =>
    [Action.storeAddAssistant d1 s2.1 d3, Action.emit Event.complete]
  else
    step env.addAssistant fun _ =>
    [Action.storeAddAssistant d1 s2.1 d3, Action.emit Event.complete])

/-- The events a trace emits, in order. -/
def eventsOf {α β L R γ : Type} (tr : List (Action α β L R γ)) :
    List (Event α β L R γ) :=
  tr.filterMap fun a =>
    match a with
    | .emit e => some e
    | _ => none

/-- Is this event an `error` event? -/
def Event.isError {α β L R γ : Type} : Event α β L R γ → Bool
  | .error _ => true
  | _ => false

/-- Is this action the emission of an `error` event? -/
def Action.isEmitError {α β L R γ : Type} : Action α β L R γ → Bool
  | .emit (.error _) => true
  | _ => false

/-- Is this action the emission of the `complete` event? -/
def Action.isEmitComplete {α β L R γ : Type} : Action α β L R γ → Bool
  | .emit .complete => true
  | _ => false

/-- Is this action the persistence of the assistant message? -/
def Action.isStoreAddAssistant {α β L R γ : Type} : Action α β L R γ → Bool
  | .storeAddAssistant _ _ _ => true
  | _ => false

/-- Is this action the `await` of the title task? -/
def Action.isAwaitTitle {α β L R γ : Type} : Action α β L R γ → Bool
  | .awaitTitle _ => true
  | _ => false

/-! ## Model of the blocking endpoint (`backend/main.py`, `send_message`) -/

/-- One observable step of the blocking endpoint `send_message`:
storage mutations, the blocking `await` of `generate_conversation_title`, and
the `await` of the whole council pipeline `run_full_council`. -/
inductive BAction (α β γ : Type) where
  | storeAddUser
  | awaitTitle (title : String)
  | storeUpdateTitle (title : String)
  | runCouncil (stage1 : α) (stage2 : β) (stage3 : γ)
  | storeAddAssistant (stage1 : α) (stage2 : β) (stage3 : γ)
deriving DecidableEq, Repr

/-- Outcomes of the fallible operations `send_message` performs, in source
order.  `run_full_council` returns `(stage1, stage2, stage3, metadata)`;
the metadata component has type `μ`. -/
structure BlockEnv (α β γ μ : Type) where
  addUser : Except String Unit
  titleGen : Except String String
  updateTitle : Except String Unit
  council : Except String (α × β × γ × μ)
  addAssistant : Except String Unit

/-- The part of `send_message` from `run_full_council` on (source lines
138-174), given the trace accumulated so far. -/
def send_message_rest {α β γ μ : Type} (env : BlockEnv α β γ μ)
    (tr : List (BAction α β γ)) :
    Except String (α × β × γ × μ) × List (BAction α β γ) :=
  match env.council with
  | .error e => (.error e, tr)
  | .ok r =>
    match env.addAssistant with
    | .error e => (.error e, tr ++ [BAction.runCouncil r.1 r.2.1 r.2.2.1])
    | .ok _ =>
      (.ok r, tr ++ [BAction.runCouncil r.1 r.2.1 r.2.2.1,
                     BAction.storeAddAssistant r.1 r.2.1 r.2.2.1])

/-- `send_message` (source lines 94-174), after the 404 existence check:
its result (`Except.error` = an exception propagated out of the endpoint,
`Except.ok` = the returned stage results and metadata) together with the
trace of actions it performed.  In this endpoint title generation, when
`isFirst`, is awaited inline before the council runs. -/
def send_message {α β γ μ : Type} (env : BlockEnv α β γ μ) (isFirst : Bool) :
    Except String (α × β × γ × μ) × List (BAction α β γ) :=
  match env.addUser with
  | .error e => (.error e, [])
  | .ok _ =>
    if isFirst then
      match env.titleGen with
      | .error e => (.error e, [BAction.storeAddUser])
      | .ok t =>
        match env.updateTitle with
        | .error e => (.error e, [BAction.storeAddUser, BAction.awaitTitle t])
        | .ok _ =>
          send_message_rest env
            [BAction.storeAddUser, BAction.awaitTitle t, BAction.storeUpdateTitle t]
    else
      send_message_rest env [BAction.storeAddUser]

/-- Is this blocking-mode action the `await` of title generation? -/
def BAction.isAwaitTitle {α β γ : Type} : BAction α β γ → Bool
  | .awaitTitle _ => true
  | _ => false

/-- Is this blocking-mode action the run of the council pipeline? -/
def BAction.isRunCouncil {α β γ : Type} : BAction α β γ → Bool
  | .runCouncil _ _ _ => true
  | _ => false

/-- Modelled from the spec's words for the concurrent-title claim: in a
blocking-mode trace, the title await happens only after the council stages
have run. -/
def titleAwaitedOnlyAfterCouncil {α β γ : Type} (tr : List (BAction α β γ)) :
    Prop :=
  ∀ i j : Fin tr.length,
    (tr.get i).isAwaitTitle = true → (tr.get j).isRunCouncil = true →
      (j : Nat) < (i : Nat)

instance {α β γ : Type} (tr : List (BAction α β γ)) :
    Decidable (titleAwaitedOnlyAfterCouncil tr) := by
  unfold titleAwaitedOnlyAfterCouncil
  infer_instance

/-! ## Theorems about `query_model` -/

/-- C3: `query_model` never raises to its caller: every exception inside the
`try` block is recovered to the failure marker `none`; and it returns `none`
when the request raises, when the HTTP status is `≥ 400`, when the body fails
to parse, and when the `choices` list is absent or empty. -/
theorem query_model_never_raises :
    (∀ (o : HttpOutcome) (m : String),
        query_model_try o = .error m → query_model o = none) ∧
    (∀ m : String, query_model (.exn m) = none) ∧
    (∀ (status : Nat) (bodyR : Except String ResponseBody),
        400 ≤ status → query_model (.response status bodyR) = none) ∧
    (∀ (status : Nat) (m : String),
        query_model (.response status (.error m)) = none) ∧
    (∀ (status : Nat) (body : ResponseBody),
        body.choices = none ∨ body.choices = some [] →
        query_model (.response status (.ok body)) = none) := by
  refine ⟨?_, ?_, ?_, ?_, ?_⟩
  · intro o m h
    simp [query_model, h]
  · intro m
    rfl
  · intro status bodyR h
    simp [query_model, query_model_try, h]
  · intro status m
    by_cases h : 400 ≤ status <;> simp [query_model, query_model_try, h]
  · intro status body h
    by_cases hs : 400 ≤ status <;>
      rcases h with h | h <;> simp [query_model, query_model_try, hs, h]

/-- Witness for C3 at concrete inputs. -/
theorem query_model_never_raises_witness :
    query_model (.exn "connect timeout") = none ∧
    query_model (.response 500 (.ok { choices := none })) = none ∧
    query_model (.response 200 (.error "bad json")) = none ∧
    query_model (.response 200 (.ok { choices := some [] })) = none := by
  refine ⟨query_model_never_raises.2.1 _, ?_, ?_, ?_⟩
  · exact query_model_never_raises.2.2.1 500 _ (by decide)
  · exact query_model_never_raises.2.2.2.1 200 _
  · exact query_model_never_raises.2.2.2.2 200 _ (Or.inr rfl)

/-- A concrete 2xx response whose single choice has a message without any
`content` field. -/
def noContentOutcome : HttpOutcome :=
  .response 200 (.ok { choices := some [{
    message := some { content := none, reasoning_details := none }
    finish_reason := some "stop" }] })

/-- C4 counterexample: on a 2xx response with a non-empty `choices` list whose
first message has no `content` field, `query_model` does **not** return the
failure marker `none`; it returns the success dict with `content` absent. -/
theorem query_model_no_content_not_failure :
    query_model noContentOutcome =
      some { content := none, reasoning_details := none } ∧
    query_model noContentOutcome ≠ none := by
  constructor
  · rfl
  · simp [noContentOutcome, query_model, query_model_try]

/-- C4 amended: if the HTTP status is below 400 and `choices` is non-empty but
the first choice's message carries no `content`, `query_model` returns a
success result whose `content` is absent (`none`), rather than the failure
marker. -/
theorem query_model_missing_content (status : Nat) (body : ResponseBody)
    (c : Choice) (rest : List Choice)
    (hs : status < 400) (hc : body.choices = some (c :: rest))
    (hcontent : (c.message.getD emptyMessage).content = none) :
    query_model (.response status (.ok body)) =
      some { content := none
             reasoning_details := (c.message.getD emptyMessage).reasoning_details } ∧
    query_model (.response status (.ok body)) ≠ none := by
  have hs' : ¬ 400 ≤ status := by omega
  constructor
  · simp [query_model, query_model_try, hs', hc, hcontent]
  · simp [query_model, query_model_try, hs', hc]

/-- Witness for the amended C4 at a concrete input. -/
theorem query_model_missing_content_witness :
    query_model (.response 200 (.ok
        { choices := some [{ message := none, finish_reason := none }] })) =
      some { content := none, reasoning_details := none } :=
  (query_model_missing_content 200
    { choices := some [{ message := none, finish_reason := none }] }
    { message := none, finish_reason := none } [] (by decide) rfl rfl).1

/-- C7: on a response with status below 400 and a non-empty `choices` list,
`query_model` returns a success result whose `content` is exactly
`choices[0].message.content` and whose `reasoning_details` is the
provider-supplied value when present and absent (`none`) otherwise; in
particular an empty-string `content` is still a success. -/
theorem query_model_success (status : Nat) (body : ResponseBody) (c : Choice)
    (rest : List Choice) (m : Message)
    (hs : status < 400) (hc : body.choices.getD [] = c :: rest)
    (hm : c.message = some m) :
    query_model (.response status (.ok body)) =
      some { content := m.content, reasoning_details := m.reasoning_details } ∧
    query_model (.response status (.ok body)) ≠ none := by
  have hs' : ¬ 400 ≤ status := by omega
  constructor
  · simp [query_model, query_model_try, hs', hc, hm]
  · simp [query_model, query_model_try, hs', hc]

/-- Witness for C7 at a concrete input, with an empty-string answer counting
as success. -/
theorem query_model_success_witness :
    query_model (.response 200 (.ok { choices := some [{
        message := some { content := some "", reasoning_details := some "trace" }
        finish_reason := some "stop" }] })) =
      some { content := some "", reasoning_details := some "trace" } :=
  (query_model_success 200
    { choices := some [{
        message := some { content := some "", reasoning_details := some "trace" }
        finish_reason := some "stop" }] }
    { message := some { content := some "", reasoning_details := some "trace" }
      finish_reason := some "stop" } []
    { content := some "", reasoning_details := some "trace" }
    (by decide) rfl rfl).1

/-! ## Association-list (Python dict) and gather lemmas -/

/-- Left-biased choice on options. -/
def optOr {β : Type} : Option β → Option β → Option β
  | some v, _ => some v
  | none, y => y

theorem optOr_none {β : Type} (x : Option β) : optOr x none = x := by
  cases x <;> rfl

theorem alookup_append {α β : Type} [DecidableEq α] (k : α)
    (l₁ l₂ : List (α × β)) :
    alookup k (l₁ ++ l₂) = optOr (alookup k l₁) (alookup k l₂) := by
  induction l₁ with
  | nil => rfl
  | cons p t ih =>
    by_cases h : p.1 = k <;> simp [alookup, h, ih, optOr]

theorem alookup_eq_none {α β : Type} [DecidableEq α] (k : α)
    (l : List (α × β)) (h : k ∉ l.map Prod.fst) : alookup k l = none := by
  induction l with
  | nil => rfl
  | cons p t ih =>
    simp only [List.map_cons, List.mem_cons] at h
    push_neg at h
    simp only [alookup]
    rw [if_neg (fun he : p.1 = k => h.1 he.symm)]
    exact ih h.2

theorem alookup_mem_nodupkeys {α β : Type} [DecidableEq α] (k : α) (v : β)
    (l : List (α × β)) (hnd : (l.map Prod.fst).Nodup) (hm : (k, v) ∈ l) :
    alookup k l = some v := by
  induction l with
  | nil => cases hm
  | cons p t ih =>
    simp only [List.map_cons, List.nodup_cons] at hnd
    rcases List.mem_cons.mp hm with h | h
    · simp [alookup, ← h]
    · have hk : p.1 ≠ k := by
        intro he
        exact hnd.1 (he ▸ List.mem_map_of_mem Prod.fst h)
      simp [alookup, hk, ih hnd.2 h]

theorem dictInsert_of_not_mem {α β : Type} [DecidableEq α]
    (d : List (α × β)) (k : α) (v : β) (h : k ∉ d.map Prod.fst) :
    dictInsert d k v = d ++ [(k, v)] := by
  have : d.any (fun p => p.1 = k) = false := by
    simp only [List.any_eq_false, decide_eq_true_eq]
    intro p hp he
    exact h (he ▸ List.mem_map_of_mem Prod.fst hp)
  simp [dictInsert, this]

theorem keys_dictInsert {α β : Type} [DecidableEq α]
    (d : List (α × β)) (k : α) (v : β) :
    (dictInsert d k v).map Prod.fst =
      if k ∈ d.map Prod.fst then d.map Prod.fst else d.map Prod.fst ++ [k] := by
  by_cases h : k ∈ d.map Prod.fst
  · have hany : d.any (fun p => p.1 = k) = true := by
      simp only [List.any_eq_true, decide_eq_true_eq]
      rcases List.mem_map.mp h with ⟨p, hp, he⟩
      exact ⟨p, hp, he⟩
    simp only [dictInsert, hany, if_pos, h, if_true]
    rw [List.map_map]
    apply List.map_congr_left
    intro p _
    by_cases hp : p.1 = k <;> simp [hp]
  · rw [dictInsert_of_not_mem d k v h]
    simp [h]

theorem alookup_overwrite_ne {α β : Type} [DecidableEq α]
    (d : List (α × β)) (k k' : α) (v : β) (h : k' ≠ k) :
    alookup k' (d.map (fun p => if p.1 = k then (k, v) else p)) =
      alookup k' d := by
  induction d with
  | nil => rfl
  | cons p t ih =>
    simp only [List.map_cons, alookup]
    by_cases hp : p.1 = k
    · rw [if_pos hp, if_neg (fun he : (k, v).1 = k' => h he.symm),
        if_neg (fun he : p.1 = k' => h (he.symm.trans hp))]
      exact ih
    · rw [if_neg hp]
      by_cases hk : p.1 = k'
      · rw [if_pos hk, if_pos hk]
      · rw [if_neg hk, if_neg hk]
        exact ih

theorem alookup_overwrite_eq {α β : Type} [DecidableEq α]
    (d : List (α × β)) (k : α) (v : β) (h : k ∈ d.map Prod.fst) :
    alookup k (d.map (fun p => if p.1 = k then (k, v) else p)) = some v := by
  induction d with
  | nil => cases h
  | cons p t ih =>
    simp only [List.map_cons]
    by_cases hp : p.1 = k
    · rw [if_pos hp]
      simp [alookup]
    · rw [if_neg hp]
      have ht : k ∈ t.map Prod.fst := by
        simp only [List.map_cons, List.mem_cons] at h
        rcases h with he | he
        · exact absurd he.symm hp
        · exact he
      simp only [alookup]
      rw [if_neg hp]
      exact ih ht

theorem alookup_dictInsert {α β : Type} [DecidableEq α]
    (d : List (α × β)) (k k' : α) (v : β) :
    alookup k' (dictInsert d k v) =
      if k' = k then some v else alookup k' d := by
  by_cases hmem : k ∈ d.map Prod.fst
  · have hany : d.any (fun p => p.1 = k) = true := by
      simp only [List.any_eq_true, decide_eq_true_eq]
      rcases List.mem_map.mp hmem with ⟨p, hp, he⟩
      exact ⟨p, hp, he⟩
    by_cases hk : k' = k
    · simp [dictInsert, hany, hk, alookup_overwrite_eq d k v hmem]
    · simp [dictInsert, hany, hk, alookup_overwrite_ne d k k' v hk]
  · rw [dictInsert_of_not_mem d k v hmem, alookup_append]
    by_cases hk : k' = k
    · rw [alookup_eq_none k' d (by rw [hk]; exact hmem)]
      simp [alookup, hk, optOr]
    · have h1 : alookup k' [(k, v)] = none := by
        simp only [alookup]
        rw [if_neg (fun he : (k, v).1 = k' => hk he.symm)]
      rw [h1, optOr_none, if_neg hk]

theorem foldl_dictInsert_nodup {α β : Type} [DecidableEq α]
    (ps : List (α × β)) (acc : List (α × β))
    (h : ((acc ++ ps).map Prod.fst).Nodup) :
    ps.foldl (fun d p => dictInsert d p.1 p.2) acc = acc ++ ps := by
  induction ps generalizing acc with
  | nil => simp
  | cons p t ih =>
    have hnotin : p.1 ∉ acc.map Prod.fst := by
      intro hmem
      rw [List.map_append] at h
      rcases List.mem_map.mp hmem with ⟨q, hq, he⟩
      have := (List.nodup_append.mp h).2.2
      exact this (he ▸ List.mem_map_of_mem Prod.fst hq)
        (by simp [List.map_cons])
    have hstep : dictInsert acc p.1 p.2 = acc ++ [p] := by
      rw [dictInsert_of_not_mem acc p.1 p.2 hnotin]
    have h' : (((acc ++ [p]) ++ t).map Prod.fst).Nodup := by
      simpa [List.append_assoc] using h
    calc (p :: t).foldl (fun d p => dictInsert d p.1 p.2) acc
        = t.foldl (fun d p => dictInsert d p.1 p.2) (acc ++ [p]) := by
          simp [List.foldl_cons, hstep]
      _ = (acc ++ [p]) ++ t := ih (acc ++ [p]) h'
      _ = acc ++ p :: t := by simp

theorem dictOfPairs_eq_self {α β : Type} [DecidableEq α]
    (ps : List (α × β)) (h : (ps.map Prod.fst).Nodup) :
    dictOfPairs ps = ps := by
  have := foldl_dictInsert_nodup ps [] (by simpa using h)
  simpa [dictOfPairs] using this

theorem alookup_foldl_dictInsert {α β : Type} [DecidableEq α]
    (ps : List (α × β)) (acc : List (α × β)) (k : α) :
    alookup k (ps.foldl (fun d p => dictInsert d p.1 p.2) acc) =
      optOr (alookup k ps.reverse) (alookup k acc) := by
  induction ps generalizing acc with
  | nil => simp [alookup, optOr]
  | cons p t ih =>
    rw [List.foldl_cons, ih (dictInsert acc p.1 p.2), List.reverse_cons,
      alookup_append, alookup_dictInsert]
    by_cases hk : k = p.1
    · have hp : alookup k [p] = some p.2 := by
        simp only [alookup]
        rw [if_pos hk.symm]
      rw [if_pos hk, hp]
      cases alookup k t.reverse <;> rfl
    · have hp : alookup k [p] = none := by
        simp only [alookup]
        rw [if_neg (fun he : p.1 = k => hk he.symm)]
      rw [if_neg hk, hp, optOr_none]

theorem alookup_dictOfPairs {α β : Type} [DecidableEq α]
    (ps : List (α × β)) (k : α) :
    alookup k (dictOfPairs ps) = alookup k ps.reverse := by
  have := alookup_foldl_dictInsert ps [] k
  simpa [dictOfPairs, alookup, optOr_none] using this

theorem mem_keys_foldl {α β : Type} [DecidableEq α]
    (ps : List (α × β)) (acc : List (α × β)) (k : α) :
    k ∈ (ps.foldl (fun d p => dictInsert d p.1 p.2) acc).map Prod.fst ↔
      k ∈ acc.map Prod.fst ∨ k ∈ ps.map Prod.fst := by
  induction ps generalizing acc with
  | nil => simp
  | cons p t ih =>
    rw [List.foldl_cons, ih (dictInsert acc p.1 p.2)]
    rw [keys_dictInsert]
    by_cases h : p.1 ∈ acc.map Prod.fst
    · simp only [h, if_true, List.map_cons, List.mem_cons]
      constructor
      · rintro (hx | hx)
        · exact Or.inl hx
        · exact Or.inr (Or.inr hx)
      · rintro (hx | hx | hx)
        · exact Or.inl hx
        · exact Or.inl (hx ▸ h)
        · exact Or.inr hx
    · simp only [h, if_false, List.map_cons, List.mem_cons, List.mem_append,
        List.mem_singleton]
      tauto

theorem keys_foldl_nodup {α β : Type} [DecidableEq α]
    (ps : List (α × β)) (acc : List (α × β))
    (h : (acc.map Prod.fst).Nodup) :
    ((ps.foldl (fun d p => dictInsert d p.1 p.2) acc).map Prod.fst).Nodup := by
  induction ps generalizing acc with
  | nil => simpa
  | cons p t ih =>
    rw [List.foldl_cons]
    apply ih
    rw [keys_dictInsert]
    by_cases hp : p.1 ∈ acc.map Prod.fst
    · simpa [hp]
    · simp [hp, List.nodup_append, h]

theorem dictOfPairs_keys_nodup {α β : Type} [DecidableEq α]
    (ps : List (α × β)) : ((dictOfPairs ps).map Prod.fst).Nodup :=
  keys_foldl_nodup ps [] (by simp)

theorem mem_keys_dictOfPairs {α β : Type} [DecidableEq α]
    (ps : List (α × β)) (k : α) :
    k ∈ (dictOfPairs ps).map Prod.fst ↔ k ∈ ps.map Prod.fst := by
  have := mem_keys_foldl ps [] k
  simpa [dictOfPairs] using this

theorem completed_map_fst {α : Type} (tasks : List α) (order : List Nat)
    (h : ∀ j ∈ order, j < tasks.length) :
    (order.filterMap (fun i => (tasks[i]?).map (fun r => (i, r)))).map Prod.fst
      = order := by
  induction order with
  | nil => rfl
  | cons j t ih =>
    have hj : j < tasks.length := h j (List.mem_cons_self j t)
    have ht : ∀ i ∈ t, i < tasks.length := fun i hi => h i (List.mem_cons_of_mem j hi)
    simp only [List.filterMap_cons, List.getElem?_eq_getElem hj, Option.map_some',
      List.map_cons]
    rw [ih ht]

theorem mem_completed {α : Type} (tasks : List α) (order : List Nat) (i : Nat)
    (hi : i < tasks.length) (hmem : i ∈ order) :
    (i, tasks[i]) ∈ order.filterMap (fun i => (tasks[i]?).map (fun r => (i, r))) := by
  apply List.mem_filterMap.mpr
  refine ⟨i, hmem, ?_⟩
  rw [List.getElem?_eq_getElem hi]
  rfl

/-- `asyncio.gather` is schedule-invariant: under any completion order that is
a permutation of the task indices, the gathered results are exactly the task
results in task order. -/
theorem asyncGather_perm {α : Type} (tasks : List α) (order : List Nat) (d : α)
    (hperm : order.Perm (List.range tasks.length)) :
    asyncGather tasks order d = tasks := by
  have hb : ∀ j ∈ order, j < tasks.length := by
    intro j hj
    exact List.mem_range.mp (hperm.mem_iff.mp hj)
  have hkeys : (order.filterMap
      (fun i => (tasks[i]?).map (fun r => (i, r)))).map Prod.fst = order :=
    completed_map_fst tasks order hb
  have hnodup : ((order.filterMap
      (fun i => (tasks[i]?).map (fun r => (i, r)))).map Prod.fst).Nodup := by
    rw [hkeys]
    exact hperm.nodup_iff.mpr (List.nodup_range _)
  apply List.ext_getElem (by simp [asyncGather])
  intro i h1 h2
  have hi : i < tasks.length := h2
  have hmem : i ∈ order := hperm.mem_iff.mpr (List.mem_range.mpr hi)
  have hl : alookup i (order.filterMap
      (fun i => (tasks[i]?).map (fun r => (i, r)))) = some tasks[i] :=
    alookup_mem_nodupkeys i tasks[i] _ hnodup (mem_completed tasks order i hi hmem)
  simp [asyncGather, hl]

/-! ## Theorems about `query_models_parallel` -/

/-- C2: for distinct model ids, whatever the completion schedule and whatever
subset of the calls fails, `query_models_parallel` returns one entry per input
id, in input order, failed calls included with the `none` marker. -/
theorem dispatch_order_preserved (models : List String)
    (outcomes : List HttpOutcome) (order : List Nat)
    (hnd : models.Nodup) (hlen : outcomes.length = models.length)
    (hperm : order.Perm (List.range models.length)) :
    query_models_parallel models outcomes order =
      models.zip (outcomes.map query_model) ∧
    (query_models_parallel models outcomes order).map Prod.fst = models ∧
    (query_models_parallel models outcomes order).length = models.length ∧
    ∀ (i : Nat) (hi : i < models.length) (ho : i < outcomes.length),
      alookup models[i] (query_models_parallel models outcomes order) =
        some (query_model outcomes[i]) := by
  have hlen2 : (outcomes.map query_model).length = models.length := by
    simp [hlen]
  have hag : asyncGather (outcomes.map query_model) order none =
      outcomes.map query_model :=
    asyncGather_perm _ _ _ (by rw [hlen2]; exact hperm)
  have hkeys : (models.zip (outcomes.map query_model)).map Prod.fst = models :=
    List.map_fst_zip _ _ (le_of_eq hlen2.symm)
  have h1 : query_models_parallel models outcomes order =
      models.zip (outcomes.map query_model) := by
    rw [query_models_parallel, hag]
    exact dictOfPairs_eq_self _ (by rw [hkeys]; exact hnd)
  refine ⟨h1, by rw [h1, hkeys], ?_, ?_⟩
  · rw [h1, List.length_zip, hlen2]
    exact Nat.min_self _
  · intro i hi ho
    rw [h1]
    have hil : i < (outcomes.map query_model).length := by
      rw [hlen2]
      exact hi
    have hz : i < (models.zip (outcomes.map query_model)).length := by
      rw [List.length_zip, hlen2, Nat.min_self]
      exact hi
    have hget : (models.zip (outcomes.map query_model)).get ⟨i, hz⟩ =
        (models.get ⟨i, hi⟩, (outcomes.map query_model).get ⟨i, hil⟩) := by
      simp [List.getElem_zip]
    have hmem : (models.get ⟨i, hi⟩, (outcomes.map query_model).get ⟨i, hil⟩) ∈
        models.zip (outcomes.map query_model) :=
      List.mem_iff_get.mpr ⟨⟨i, hz⟩, hget⟩
    have hlk := alookup_mem_nodupkeys _ _ _ (by rw [hkeys]; exact hnd) hmem
    simp only [List.get_eq_getElem] at hlk
    rw [hlk]
    congr 1
    simp

/-- A concrete successful provider outcome carrying answer text `s`. -/
def okOutcome (s : String) : HttpOutcome :=
  .response 200 (.ok { choices := some [{
    message := some { content := some s, reasoning_details := none }
    finish_reason := none }] })

/-- Witness for C2: three distinct models, the middle call failing, completion
in reverse order; the mapping keeps input order and marks the failure. -/
theorem dispatch_order_preserved_witness :
    query_models_parallel ["m1", "m2", "m3"]
      [okOutcome "a", .exn "timeout", okOutcome "c"] [2, 1, 0] =
      [("m1", some { content := some "a", reasoning_details := none }),
       ("m2", none),
       ("m3", some { content := some "c", reasoning_details := none })] := by
  have h := (dispatch_order_preserved ["m1", "m2", "m3"]
    [okOutcome "a", .exn "timeout", okOutcome "c"]
    [2, 1, 0] (by decide) rfl (by decide)).1
  rw [h]
  rfl

/-- C9: with duplicate ids in the input, the mapping has one entry per
distinct id (so its size is the distinct count, not the input length), and a
duplicated id's entry holds the response of its last occurrence. -/
theorem dispatch_duplicate_ids (models : List String)
    (outcomes : List HttpOutcome) (order : List Nat)
    (hlen : outcomes.length = models.length)
    (hperm : order.Perm (List.range models.length)) :
    ((query_models_parallel models outcomes order).map Prod.fst).Nodup ∧
    (∀ m : String,
      m ∈ (query_models_parallel models outcomes order).map Prod.fst ↔
        m ∈ models) ∧
    (query_models_parallel models outcomes order).length =
      models.dedup.length ∧
    (∀ m : String, alookup m (query_models_parallel models outcomes order) =
      alookup m (models.zip (outcomes.map query_model)).reverse) := by
  have hlen2 : (outcomes.map query_model).length = models.length := by
    simp [hlen]
  have hag : asyncGather (outcomes.map query_model) order none =
      outcomes.map query_model :=
    asyncGather_perm _ _ _ (by rw [hlen2]; exact hperm)
  have hkeys : (models.zip (outcomes.map query_model)).map Prod.fst = models :=
    List.map_fst_zip _ _ (le_of_eq hlen2.symm)
  have hq : query_models_parallel models outcomes order =
      dictOfPairs (models.zip (outcomes.map query_model)) := by
    rw [query_models_parallel, hag]
  have hnodup :
      ((query_models_parallel models outcomes order).map Prod.fst).Nodup := by
    rw [hq]
    exact dictOfPairs_keys_nodup _
  have hmem : ∀ m : String,
      m ∈ (query_models_parallel models outcomes order).map Prod.fst ↔
        m ∈ models := by
    intro m
    rw [hq, mem_keys_dictOfPairs, hkeys]
  refine ⟨hnodup, hmem, ?_, ?_⟩
  · have hlen3 : (query_models_parallel models outcomes order).length =
        ((query_models_parallel models outcomes order).map Prod.fst).length := by
      simp
    rw [hlen3, ← List.toFinset_card_of_nodup hnodup]
    have hfs : ((query_models_parallel models outcomes order).map
        Prod.fst).toFinset = models.toFinset := by
      apply Finset.ext
      intro m
      rw [List.mem_toFinset, List.mem_toFinset]
      exact hmem m
    rw [hfs, List.card_toFinset]
  · intro m
    rw [hq, alookup_dictOfPairs]

/-- Witness for C9: the same id twice with different outcomes; the mapping has
a single entry, holding the last occurrence's (failing) response, so its size
is 1 and not the input length 2. -/
theorem dispatch_duplicate_ids_witness :
    alookup "m" (query_models_parallel ["m", "m"]
      [okOutcome "first", .exn "boom"] [0, 1]) = some none ∧
    (query_models_parallel ["m", "m"]
      [okOutcome "first", .exn "boom"] [0, 1]).length = 1 := by
  have h := dispatch_duplicate_ids ["m", "m"]
    [okOutcome "first", .exn "boom"] [0, 1] rfl (by decide)
  constructor
  · rw [h.2.2.2 "m"]
    rfl
  · rw [h.2.2.1]
    rfl

/-! ## Theorems about the streaming endpoint -/

/-- C1: on a run with no uncaught exception, the stream emits exactly
`stage1_start`, `stage1_complete`, `stage2_start`, `stage2_complete` (with the
label map and aggregate rankings), `stage3_start`, `stage3_complete`, then
`title_complete` if and only if the message is the first in its conversation,
then `complete` — nothing else, nothing repeated. -/
theorem stream_success_event_order {α β L R γ : Type}
    (env : StreamEnv α β L R γ) (isFirst : Bool)
    (d1 : α) (d2 : β) (lm : L) (agg : R) (d3 : γ) (t : String)
    (h0 : env.addUser = .ok ()) (h1 : env.stage1 = .ok d1)
    (h2 : env.stage2 = .ok (d2, lm)) (hA : env.aggregate = .ok agg)
    (h3 : env.stage3 = .ok d3) (hT : env.titleTask = .ok t)
    (hU : env.updateTitle = .ok ()) (hP : env.addAssistant = .ok ()) :
    eventsOf (event_generator env isFirst) =
      [Event.stage1_start, Event.stage1_complete d1, Event.stage2_start,
       Event.stage2_complete d2 lm agg, Event.stage3_start,
       Event.stage3_complete d3] ++
      (if isFirst then [Event.title_complete t] else []) ++
      [Event.complete] := by
  cases isFirst <;>
    simp [event_generator, step, eventsOf, h0, h1, h2, hA, h3, hT, hU, hP]

/-- A concrete all-success streaming environment. -/
def wEnv : StreamEnv Nat Nat Nat Nat Nat where
  addUser := .ok ()
  stage1 := .ok 1
  stage2 := .ok (2, 3)
  aggregate := .ok 4
  stage3 := .ok 5
  titleTask := .ok "Title"
  updateTitle := .ok ()
  addAssistant := .ok ()

/-- Witness for C1 on a concrete first-message run. -/
theorem stream_success_event_order_witness :
    eventsOf (event_generator wEnv true) =
      [Event.stage1_start, Event.stage1_complete 1, Event.stage2_start,
       Event.stage2_complete 2 3 4, Event.stage3_start, Event.stage3_complete 5,
       Event.title_complete "Title", Event.complete] := by
  have h := stream_success_event_order wEnv true 1 2 3 4 5 "Title"
    rfl rfl rfl rfl rfl rfl rfl rfl
  simpa using h

/-- A trace that ends in a single `error` event, with no earlier error event,
no `complete` event, and no assistant persistence. -/
def errTerminated {α β L R γ : Type} (tr : List (Action α β L R γ)) : Prop :=
  ∃ pre e, tr = pre ++ [Action.emit (Event.error e)] ∧
    pre.all (fun a =>
      !a.isEmitError && !a.isEmitComplete && !a.isStoreAddAssistant) = true

theorem errTerminated_single {α β L R γ : Type} (e : String) :
    errTerminated ([Action.emit (Event.error e)] : List (Action α β L R γ)) :=
  ⟨[], e, rfl, rfl⟩

theorem errTerminated_cons {α β L R γ : Type} (a : Action α β L R γ)
    (tr : List (Action α β L R γ))
    (ha : (!a.isEmitError && !a.isEmitComplete && !a.isStoreAddAssistant) = true)
    (h : errTerminated tr) : errTerminated (a :: tr) := by
  obtain ⟨pre, e, h1, h2⟩ := h
  refine ⟨a :: pre, e, by rw [h1]; rfl, ?_⟩
  rw [List.all_cons, ha, h2]
  rfl

/-- Structure of every possible run of the generator: either a single `error`
event closes the trace, or the run succeeded and the trace is the full success
trace. -/
theorem event_generator_shape {α β L R γ : Type} (env : StreamEnv α β L R γ)
    (isFirst : Bool) :
    errTerminated (event_generator env isFirst) ∨
    ∃ d1 d2 lm agg d3 t,
      env.stage1 = .ok d1 ∧ env.stage2 = .ok (d2, lm) ∧
      env.aggregate = .ok agg ∧ env.stage3 = .ok d3 ∧
      event_generator env isFirst =
        Action.storeAddUser ::
        (if isFirst then [Action.createTitleTask] else []) ++
        Action.emit Event.stage1_start ::
        Action.emit (Event.stage1_complete d1) ::
        Action.emit Event.stage2_start ::
        Action.emit (Event.stage2_complete d2 lm agg) ::
        Action.emit Event.stage3_start ::
        Action.emit (Event.stage3_complete d3) ::
        (if isFirst then
          [Action.awaitTitle t, Action.storeUpdateTitle t,
           Action.emit (Event.title_complete t)]
        else []) ++
        [Action.storeAddAssistant d1 d2 d3, Action.emit Event.complete] := by
  obtain ⟨au, s1, s2, ag, s3, tt, ut, aa⟩ := env
  cases isFirst with
  | false =>
    cases au with
    | error e =>
      exact Or.inl (by
        simp only [event_generator, step]
        exact errTerminated_single e)
    | ok u =>
      cases s1 with
      | error e =>
        refine Or.inl ?_
        simp [event_generator, step]
        repeat
          first
          | exact errTerminated_single _
          | refine errTerminated_cons _ _ rfl ?_
      | ok d1 =>
        cases s2 with
        | error e =>
          refine Or.inl ?_
          simp [event_generator, step]
          repeat
            first
            | exact errTerminated_single _
            | refine errTerminated_cons _ _ rfl ?_
        | ok p =>
          cases ag with
          | error e =>
            refine Or.inl ?_
            simp [event_generator, step]
            repeat
              first
              | exact errTerminated_single _
              | refine errTerminated_cons _ _ rfl ?_
          | ok agg =>
            cases s3 with
            | error e =>
              refine Or.inl ?_
              simp [event_generator, step]
              repeat
                first
                | exact errTerminated_single _
                | refine errTerminated_cons _ _ rfl ?_
            | ok d3 =>
              cases aa with
              | error e =>
                refine Or.inl ?_
                simp [event_generator, step]
                repeat
                  first
                  | exact errTerminated_single _
                  | refine errTerminated_cons _ _ rfl ?_
              | ok v =>
                refine Or.inr ⟨d1, p.1, p.2, agg, d3, "", rfl, rfl, rfl, rfl, ?_⟩
                simp [event_generator, step]
  | true =>
    cases au with
    | error e =>
      exact Or.inl (by
        simp only [event_generator, step]
        exact errTerminated_single e)
    | ok u =>
      cases s1 with
      | error e =>
        refine Or.inl ?_
        simp [event_generator, step]
        repeat
          first
          | exact errTerminated_single _
          | refine errTerminated_cons _ _ rfl ?_
      | ok d1 =>
        cases s2 with
        | error e =>
          refine Or.inl ?_
          simp [event_generator, step]
          repeat
            first
            | exact errTerminated_single _
            | refine errTerminated_cons _ _ rfl ?_
        | ok p =>
          cases ag with
          | error e =>
            refine Or.inl ?_
            simp [event_generator, step]
            repeat
              first
              | exact errTerminated_single _
              | refine errTerminated_cons _ _ rfl ?_
          | ok agg =>
            cases s3 with
            | error e =>
              refine Or.inl ?_
              simp [event_generator, step]
              repeat
                first
                | exact errTerminated_single _
                | refine errTerminated_cons _ _ rfl ?_
            | ok d3 =>
              cases tt with
              | error e =>
                refine Or.inl ?_
                simp [event_generator, step]
                repeat
                  first
                  | exact errTerminated_single _
                  | refine errTerminated_cons _ _ rfl ?_
              | ok t =>
                cases ut with
                | error e =>
                  refine Or.inl ?_
                  simp [event_generator, step]
                  repeat
                    first
                    | exact errTerminated_single _
                    | refine errTerminated_cons _ _ rfl ?_
                | ok w =>
                  cases aa with
                  | error e =>
                    refine Or.inl ?_
                    simp [event_generator, step]
                    repeat
                      first
                      | exact errTerminated_single _
                      | refine errTerminated_cons _ _ rfl ?_
                  | ok v =>
                    refine Or.inr ⟨d1, p.1, p.2, agg, d3, t, rfl, rfl, rfl, rfl, ?_⟩
                    simp [event_generator, step]

theorem eventsOf_no_error {α β L R γ : Type} (pre : List (Action α β L R γ))
    (hall : pre.all (fun a =>
      !a.isEmitError && !a.isEmitComplete && !a.isStoreAddAssistant) = true) :
    ∀ ev ∈ eventsOf pre, ev.isError = false := by
  intro ev hev
  rw [eventsOf, List.mem_filterMap] at hev
  obtain ⟨a, ha, hme⟩ := hev
  have hbool := List.all_eq_true.mp hall a ha
  cases a with
  | emit e0 =>
    simp only [Option.some.injEq] at hme
    subst hme
    cases e0 <;> simp_all [Action.isEmitError, Event.isError]
  | storeAddUser => simp at hme
  | createTitleTask => simp at hme
  | awaitTitle t => simp at hme
  | storeUpdateTitle t => simp at hme
  | storeAddAssistant d1 d2 d3 => simp at hme

theorem eventsOf_no_complete {α β L R γ : Type} (pre : List (Action α β L R γ))
    (hall : pre.all (fun a =>
      !a.isEmitError && !a.isEmitComplete && !a.isStoreAddAssistant) = true) :
    Event.complete ∉ eventsOf pre := by
  intro hev
  rw [eventsOf, List.mem_filterMap] at hev
  obtain ⟨a, ha, hme⟩ := hev
  have hbool := List.all_eq_true.mp hall a ha
  cases a with
  | emit e0 =>
    simp only [Option.some.injEq] at hme
    subst hme
    simp_all [Action.isEmitComplete]
  | storeAddUser => simp at hme
  | createTitleTask => simp at hme
  | awaitTitle t => simp at hme
  | storeUpdateTitle t => simp at hme
  | storeAddAssistant d1 d2 d3 => simp at hme

theorem no_assistant_of_all {α β L R γ : Type} (pre : List (Action α β L R γ))
    (hall : pre.all (fun a =>
      !a.isEmitError && !a.isEmitComplete && !a.isStoreAddAssistant) = true) :
    pre.countP (fun a => a.isStoreAddAssistant) = 0 := by
  rw [List.countP_eq_zero]
  intro a ha
  have hbool := List.all_eq_true.mp hall a ha
  simp only [Bool.and_eq_true, Bool.not_eq_true'] at hbool
  simp [hbool.2]

/-- C6: whenever the stream contains an `error` event, that event is the last
one: exactly one error event is emitted, every earlier event is a non-error
event, and in particular no stage event, `title_complete` or `complete`
follows the error. -/
theorem stream_error_terminal {α β L R γ : Type} (env : StreamEnv α β L R γ)
    (isFirst : Bool)
    (h : ∃ e, Event.error e ∈ eventsOf (event_generator env isFirst)) :
    ∃ pre e, eventsOf (event_generator env isFirst) = pre ++ [Event.error e] ∧
      (∀ ev ∈ pre, ev.isError = false) ∧
      (eventsOf (event_generator env isFirst)).countP
        (fun ev => ev.isError) = 1 := by
  rcases event_generator_shape env isFirst with hsh | hsh
  · obtain ⟨pre, e, htr, hall⟩ := hsh
    have hev : eventsOf (event_generator env isFirst) =
        eventsOf pre ++ [Event.error e] := by
      rw [htr, eventsOf, List.filterMap_append]
      rfl
    refine ⟨eventsOf pre, e, hev, eventsOf_no_error pre hall, ?_⟩
    rw [hev, List.countP_append]
    have h0 : (eventsOf pre).countP (fun ev => ev.isError) = 0 := by
      rw [List.countP_eq_zero]
      intro ev hev'
      simp [eventsOf_no_error pre hall ev hev']
    rw [h0]
    rfl
  · exfalso
    obtain ⟨d1, d2, lm, agg, d3, t, _, _, _, _, htr⟩ := hsh
    obtain ⟨e, he⟩ := h
    rw [htr] at he
    cases isFirst <;> simp [eventsOf] at he

/-- A concrete streaming environment whose Stage-2 call raises. -/
def wErrEnv : StreamEnv Nat Nat Nat Nat Nat where
  addUser := .ok ()
  stage1 := .ok 1
  stage2 := .error "stage2 boom"
  aggregate := .ok 4
  stage3 := .ok 5
  titleTask := .ok "T"
  updateTitle := .ok ()
  addAssistant := .ok ()

/-- Witness for C6 on a concrete run failing during Stage 2. -/
theorem stream_error_terminal_witness :
    ∃ pre e, eventsOf (event_generator wErrEnv true) = pre ++ [Event.error e] ∧
      (∀ ev ∈ pre, ev.isError = false) ∧
      (eventsOf (event_generator wErrEnv true)).countP
        (fun ev => ev.isError) = 1 :=
  stream_error_terminal wErrEnv true ⟨"stage2 boom", by decide⟩

/-- C10: the user message is appended before any event (in particular before
any stage event) unless its own append raised, in which case the only action
is the error event; the assistant message is persisted exactly once, only on
the success path — after `stage3_complete` and title handling, immediately
before `complete` — and never on a run that emitted an `error` event, while a
user append that happened stays in the trace. -/
theorem stream_persistence_discipline {α β L R γ : Type}
    (env : StreamEnv α β L R γ) (isFirst : Bool) :
    ((∃ e, event_generator env isFirst = [Action.emit (Event.error e)] ∧
        env.addUser = .error e) ∨
      (event_generator env isFirst).head? = some Action.storeAddUser) ∧
    (env.addUser = .ok () → Action.storeAddUser ∈ event_generator env isFirst) ∧
    ((∃ e, Event.error e ∈ eventsOf (event_generator env isFirst)) →
      (event_generator env isFirst).countP
        (fun a => a.isStoreAddAssistant) = 0) ∧
    (Event.complete ∈ eventsOf (event_generator env isFirst) →
      ∃ pre d1 d2 d3,
        event_generator env isFirst =
          pre ++ [Action.storeAddAssistant d1 d2 d3, Action.emit Event.complete] ∧
        pre.countP (fun a => a.isStoreAddAssistant) = 0 ∧
        Action.emit (Event.stage3_complete d3) ∈ pre ∧
        (isFirst = true → ∃ t, Action.emit (Event.title_complete t) ∈ pre)) := by
  refine ⟨?_, ?_, ?_, ?_⟩
  · cases hau : env.addUser with
    | error e =>
      exact Or.inl ⟨e, by simp [event_generator, step, hau], rfl⟩
    | ok u =>
      right
      simp [event_generator, step, hau]
  · intro hau
    simp [event_generator, step, hau]
  · intro h
    rcases event_generator_shape env isFirst with hsh | hsh
    · obtain ⟨pre, e, htr, hall⟩ := hsh
      rw [htr, List.countP_append, no_assistant_of_all pre hall]
      rfl
    · exfalso
      obtain ⟨d1, d2, lm, agg, d3, t, _, _, _, _, htr⟩ := hsh
      obtain ⟨e, he⟩ := h
      rw [htr] at he
      cases isFirst <;> simp [eventsOf] at he
  · intro h
    rcases event_generator_shape env isFirst with hsh | hsh
    · exfalso
      obtain ⟨pre, e, htr, hall⟩ := hsh
      rw [htr] at h
      rw [eventsOf, List.filterMap_append] at h
      rcases List.mem_append.mp h with hc | hc
      · exact eventsOf_no_complete pre hall hc
      · simp at hc
    · obtain ⟨d1, d2, lm, agg, d3, t, _, _, _, _, htr⟩ := hsh
      refine ⟨Action.storeAddUser ::
        (if isFirst then [Action.createTitleTask] else []) ++
        Action.emit Event.stage1_start ::
        Action.emit (Event.stage1_complete d1) ::
        Action.emit Event.stage2_start ::
        Action.emit (Event.stage2_complete d2 lm agg) ::
        Action.emit Event.stage3_start ::
        Action.emit (Event.stage3_complete d3) ::
        (if isFirst then
          [Action.awaitTitle t, Action.storeUpdateTitle t,
           Action.emit (Event.title_complete t)]
        else []), d1, d2, d3, ?_, ?_, ?_, ?_⟩
      · rw [htr]
      · cases isFirst <;>
          simp [Action.isStoreAddAssistant, List.countP_cons, List.countP_append]
      · cases isFirst <;> simp
      · intro hf
        subst hf
        exact ⟨t, by simp⟩

/-- Witness for C10's conditional parts on concrete runs: the success run
persists the assistant exactly once just before `complete`, and the failing
run persists the user message but not the assistant message. -/
theorem stream_persistence_discipline_witness :
    (event_generator wEnv true).head? = some Action.storeAddUser ∧
    Action.storeAddUser ∈ event_generator wErrEnv true ∧
    (event_generator wErrEnv true).countP
      (fun a => a.isStoreAddAssistant) = 0 ∧
    ∃ pre d1 d2 d3,
      event_generator wEnv true =
        pre ++ [Action.storeAddAssistant d1 d2 d3, Action.emit Event.complete] ∧
      pre.countP (fun a => a.isStoreAddAssistant) = 0 ∧
      Action.emit (Event.stage3_complete d3) ∈ pre ∧
      (true = true → ∃ t, Action.emit (Event.title_complete t) ∈ pre) := by
  refine ⟨?_, ?_, ?_, ?_⟩
  · rcases (stream_persistence_discipline wEnv true).1 with ⟨e, _, habs⟩ | h
    · cases habs
    · exact h
  · exact (stream_persistence_discipline wErrEnv true).2.1 rfl
  · exact (stream_persistence_discipline wErrEnv true).2.2.1
      ⟨"stage2 boom", by decide⟩
  · exact (stream_persistence_discipline wEnv true).2.2.2 (by decide)

/-! ## Theorems about title-task scheduling and the blocking endpoint -/

/-- A concrete all-success blocking environment for a first message. -/
def cBlockEnv : BlockEnv Unit Unit Unit Unit where
  addUser := .ok ()
  titleGen := .ok "T"
  updateTitle := .ok ()
  council := .ok ((), (), (), ())
  addAssistant := .ok ()

/-- C5 counterexample: in blocking mode (`send_message`) on a first message,
the title is awaited before the council stages run, so it is **not** awaited
only after Stage 3 completes. -/
theorem blocking_title_await_before_council :
    ¬ titleAwaitedOnlyAfterCouncil ((send_message cBlockEnv true).2) := by
  decide

/-- C5 amended: in streaming mode the title task is created right after the
user-message append, before `stage1_start`, and awaited exactly once,
immediately after `stage3_complete` and before the assistant message is
persisted; in blocking mode the title is generated and awaited inline before
the council stages run. -/
theorem title_task_scheduling {α β L R γ α' β' γ' μ : Type}
    (env : StreamEnv α β L R γ) (benv : BlockEnv α' β' γ' μ)
    (d1 : α) (d2 : β) (lm : L) (agg : R) (d3 : γ) (t : String)
    (h0 : env.addUser = .ok ()) (h1 : env.stage1 = .ok d1)
    (h2 : env.stage2 = .ok (d2, lm)) (hA : env.aggregate = .ok agg)
    (h3 : env.stage3 = .ok d3) (hT : env.titleTask = .ok t)
    (hU : env.updateTitle = .ok ()) (hP : env.addAssistant = .ok ())
    (bt : String) (c1 : α') (c2 : β') (c3 : γ') (cm : μ)
    (hb0 : benv.addUser = .ok ()) (hb1 : benv.titleGen = .ok bt)
    (hb2 : benv.updateTitle = .ok ())
    (hb3 : benv.council = .ok (c1, c2, c3, cm))
    (hb4 : benv.addAssistant = .ok ()) :
    (event_generator env true =
      Action.storeAddUser :: Action.createTitleTask ::
      Action.emit Event.stage1_start ::
      Action.emit (Event.stage1_complete d1) ::
      Action.emit Event.stage2_start ::
      Action.emit (Event.stage2_complete d2 lm agg) ::
      Action.emit Event.stage3_start ::
      Action.emit (Event.stage3_complete d3) ::
      Action.awaitTitle t ::
      Action.storeUpdateTitle t ::
      Action.emit (Event.title_complete t) ::
      [Action.storeAddAssistant d1 d2 d3, Action.emit Event.complete]) ∧
    (send_message benv true).2 =
      [BAction.storeAddUser, BAction.awaitTitle bt,
       BAction.storeUpdateTitle bt, BAction.runCouncil c1 c2 c3,
       BAction.storeAddAssistant c1 c2 c3] := by
  constructor
  · simp [event_generator, step, h0, h1, h2, hA, h3, hT, hU, hP]
  · simp [send_message, send_message_rest, hb0, hb1, hb2, hb3, hb4]

/-- Witness for the amended C5 at concrete environments. -/
theorem title_task_scheduling_witness :
    event_generator wEnv true =
      Action.storeAddUser :: Action.createTitleTask ::
      Action.emit Event.stage1_start ::
      Action.emit (Event.stage1_complete 1) ::
      Action.emit Event.stage2_start ::
      Action.emit (Event.stage2_complete 2 3 4) ::
      Action.emit Event.stage3_start ::
      Action.emit (Event.stage3_complete 5) ::
      Action.awaitTitle "Title" ::
      Action.storeUpdateTitle "Title" ::
      Action.emit (Event.title_complete "Title") ::
      [Action.storeAddAssistant 1 2 5, Action.emit Event.complete] :=
  (title_task_scheduling wEnv cBlockEnv 1 2 3 4 5 "Title"
    rfl rfl rfl rfl rfl rfl rfl rfl "T" () () () ()
    rfl rfl rfl rfl rfl).1

/-- C8: in blocking mode, an exception raised by the user-message append,
title generation, the title update, the council pipeline, or assistant
persistence is not caught by the endpoint: `send_message` propagates it as a
fatal error instead of returning a partial result. -/
theorem blocking_error_propagates {α β γ μ : Type} (env : BlockEnv α β γ μ)
    (isFirst : Bool) (e t : String) :
    (env.addUser = .error e → (send_message env isFirst).1 = .error e) ∧
    (env.addUser = .ok () → isFirst = true → env.titleGen = .error e →
      (send_message env isFirst).1 = .error e) ∧
    (env.addUser = .ok () → isFirst = true → env.titleGen = .ok t →
      env.updateTitle = .error e → (send_message env isFirst).1 = .error e) ∧
    (env.addUser = .ok () →
      (isFirst = false ∨ (env.titleGen = .ok t ∧ env.updateTitle = .ok ())) →
      env.council = .error e → (send_message env isFirst).1 = .error e) ∧
    (∀ r : α × β × γ × μ, env.addUser = .ok () →
      (isFirst = false ∨ (env.titleGen = .ok t ∧ env.updateTitle = .ok ())) →
      env.council = .ok r → env.addAssistant = .error e →
      (send_message env isFirst).1 = .error e) := by
  refine ⟨?_, ?_, ?_, ?_, ?_⟩
  · intro h
    simp [send_message, h]
  · intro h hf ht
    subst hf
    simp [send_message, h, ht]
  · intro h hf ht hu
    subst hf
    simp [send_message, h, ht, hu]
  · intro h hd hc
    rcases hd with hf | ⟨ht, hu⟩
    · subst hf
      simp [send_message, send_message_rest, h, hc]
    · cases isFirst <;>
        simp [send_message, send_message_rest, h, ht, hu, hc]
  · intro r h hd hc ha
    rcases hd with hf | ⟨ht, hu⟩
    · subst hf
      simp [send_message, send_message_rest, h, hc, ha]
    · cases isFirst <;>
        simp [send_message, send_message_rest, h, ht, hu, hc, ha]

/-- A blocking environment whose council pipeline raises. -/
def cBlockEnvErr : BlockEnv Unit Unit Unit Unit where
  addUser := .ok ()
  titleGen := .ok "T"
  updateTitle := .ok ()
  council := .error "council down"
  addAssistant := .ok ()

/-- Witness for C8: a council failure on a first message propagates out of
`send_message`. -/
theorem blocking_error_propagates_witness :
    (send_message cBlockEnvErr true).1 = .error "council down" :=
  (blocking_error_propagates cBlockEnvErr true "council down" "T").2.2.2.1
    rfl (Or.inr ⟨rfl, rfl⟩) rfl

end LLMCouncil
